import Mathlib

/-!
Verification of `plugin/completion/base_complete.py` (EasyClangComplete).

The Python module defines `BaseCompleter`, the base class for clang-based
completers.  We shallowly embed its data and operations:

* the constructor `BaseCompleter.__init__` (version probe with the
  `\d\.\d` regex, the OSX version remap, failure on empty binary path),
* `needs_init`, `init`, `get_completions`, `show_errors`, `run_command`,
* the Python class-attribute semantics of the class-level defaults
  (`completions`, `valid`, `async_completions_ready`).

External effects are passed in explicitly: the subprocess is an oracle
`run : String → String` mapping a command line to its combined
stdout+stderr text, `platform.system()` is a `String` argument, and the
`tools.OSX_CLANG_VERSION_DICT` table (whose module is not part of the
analysed sources) is a finite map `String → Option String`.
-/

namespace BaseComplete

/-! ### The `\d\.\d` regex search of the version probe -/

/-- `matchesAt cs i` holds when the regex `\d\.\d` (a digit, a literal
dot, a digit) matches the text `cs` at position `i`. -/
def matchesAt (cs : List Char) (i : Nat) : Bool :=
  match cs.drop i with
  | a :: b :: c :: _ => a.isDigit && (b == '.') && c.isDigit
  | _ => false

/-- Scan positions `start, start+1, …` (at most `fuel` of them) and return
the first one satisfying `p`; this is the left-to-right scan performed by
`re.search`. -/
def findIdxFrom (p : Nat → Bool) : Nat → Nat → Option Nat
  | _, 0 => none
  | i, fuel + 1 => if p i then some i else findIdxFrom p (i + 1) fuel

/-- Index of the leftmost `\d\.\d` match in `cs`, as found by
`re.compile("\d\.\d").search(output_text)`. -/
def findVersionIdx (cs : List Char) : Option Nat :=
  findIdxFrom (matchesAt cs) 0 cs.length

/-- The three-character matched substring starting at position `i`
(`match.group()` of a `\d\.\d` match). -/
def versionAt (cs : List Char) (i : Nat) : String :=
  String.mk ((cs.drop i).take 3)

/-- `version_regex.search(output_text)` followed by `match.group()`:
the leftmost substring of `cs` matching `\d\.\d`, if any. -/
def findVersion (cs : List Char) : Option String :=
  (findVersionIdx cs).map (versionAt cs)

/-- Python string comparison, lexicographic on code points: the first
differing character decides; a strict prefix is smaller. -/
def charListLt : List Char → List Char → Bool
  | [], [] => false
  | [], _ :: _ => true
  | _ :: _, [] => false
  | a :: as, b :: bs =>
    if a.toNat < b.toNat then true
    else if b.toNat < a.toNat then false
    else charListLt as bs

/-- Python `a < b` on strings. -/
def pyStrLt (a b : String) : Bool :=
  charListLt a.data b.data

/-! ### Data model -/

/-- Severity of a diagnostic (spec §3 `Diagnostic.severity`). -/
inductive Severity
  | error
  | warning
deriving DecidableEq, Repr

/-- Modelled from the spec: a single structured error/warning extracted
from compiler output (spec §3 **Diagnostic**); the class producing these
(`error_vis` / compiler variants) is not among the analysed sources. -/
structure Diagnostic where
  file_path : String
  line : Nat
  column : Nat
  severity : Severity
  message : String
deriving DecidableEq, Repr

/-- Modelled from the spec: the `error_vis.CompileErrors` presenter state
(its module is not among the analysed sources).  It stores, per view
identifier, the diagnostic set last generated for that view
(spec §4.4: `generate` *replaces* the stored set). -/
structure CompileErrors where
  err_regions : List (Nat × List Diagnostic)
deriving DecidableEq, Repr

/-- `SearchScope(from_folder=…, to_folder=…)` as constructed in
`BaseCompleter.init`; the defining module only gets these two fields. -/
structure SearchScope where
  from_folder : String
  to_folder : String
deriving DecidableEq, Repr

/-- `FlagsManager(use_cmake=…, flags_update_strategy=…,
cmake_prefix_paths=…, search_scope=…)` as constructed in
`BaseCompleter.init`: the record of its constructor arguments (the
manager's own module is not among the analysed sources). -/
structure FlagsManager where
  use_cmake : Bool
  flags_update_strategy : String
  cmake_prefix_paths : List String
  search_scope : SearchScope
deriving DecidableEq, Repr

/-- The fields of a `BaseCompleter` instance that the embedded methods
read or write.  `completions` entries are kept abstract as strings. -/
structure CompleterState where
  version_str : Option String
  error_vis : Option CompileErrors
  flags_manager : Option FlagsManager
  completions : List String
deriving DecidableEq, Repr

/-- The state right after a successful `BaseCompleter.__init__`:
`version_str` assigned, `error_vis = CompileErrors()` (fresh, empty),
the other attributes still at their class-level defaults. -/
def freshCompleter (v : String) : CompleterState :=
  { version_str := some v
    error_vis := some ⟨[]⟩
    flags_manager := none
    completions := [] }

/-- The exceptions `BaseCompleter.__init__` can raise: the two explicit
`RuntimeError`s, and the `KeyError` a Python dict subscript raises when
`tools.OSX_CLANG_VERSION_DICT[osx_version]` misses. -/
inductive InitError
  | clangBinaryNotDefined
  | versionNotFound
  | keyError (key : String)
deriving DecidableEq, Repr

/-! ### The constructor `BaseCompleter.__init__` -/

/-- `BaseCompleter.__init__(clang_binary)`.

Arguments model the environment: `system` is `platform.system()`,
`osxDict` is the `tools.OSX_CLANG_VERSION_DICT` table (a dict subscript
that raises `KeyError` on a missing key), `run` maps a command line to
the combined stdout+stderr text `run_command` returns for it.

The result pairs the outcome (`Except` mirrors raised exceptions) with
the list of subprocess command lines invoked, in order. -/
def baseCompleterInit (system : String) (osxDict : String → Option String)
    (run : String → String) (clang_binary : String) :
    Except InitError CompleterState × List String :=
  if clang_binary = "" then
    (Except.error InitError.clangBinaryNotDefined, [])
  else
    let check_version_cmd := clang_binary ++ " -v"
    let output_text := run check_version_cmd
    match findVersion output_text.data with
    | some version =>
      if pyStrLt "3.8" version && (system == "Darwin") then
        match osxDict version with
        | some mapped => (Except.ok (freshCompleter mapped), [check_version_cmd])
        | none => (Except.error (InitError.keyError version), [check_version_cmd])
      else
        (Except.ok (freshCompleter version), [check_version_cmd])
    | none => (Except.error InitError.versionNotFound, [check_version_cmd])

/-! ### `BaseCompleter.needs_init` -/

/-- `BaseCompleter.needs_init(self, view)`.

`any_file_modified` is the value `self.flags_manager.any_file_modified()`
would return (the manager's module is not among the analysed sources) and
`exists_for_view` is the value `self.exists_for_view(view.buffer_id())`
returns in the concrete subclass (abstract in the base class). -/
def needs_init (flags_manager : Option FlagsManager)
    (any_file_modified : Bool) (exists_for_view : Bool) : Bool :=
  match flags_manager with
  | none => true
  | some _ =>
    if any_file_modified then true
    else if exists_for_view then false
    else true

/-! ### `BaseCompleter.init` -/

/-- A `sublime.View` as consumed by `BaseCompleter.init`: only
`view.file_name()` is read. -/
structure SView where
  file_name : String
deriving DecidableEq, Repr

/-- The settings collaborator fields read by `BaseCompleter.init`. -/
structure Settings where
  project_base_folder : String
  generate_flags_with_cmake : Bool
  cmake_flags_priority : String
  cmake_prefix_paths : List String
deriving DecidableEq, Repr

/-- `os.path.dirname` for POSIX paths: everything before the final slash
(`p[:rfind('/')+1]`), with trailing slashes stripped unless the head is
all slashes. -/
def dirname (p : String) : String :=
  match (p.data.reverse.dropWhile (fun c => c ≠ '/')) with
  | [] => ""
  | revHead =>
    let head := revHead.reverse
    if head.all (fun c => c = '/') then String.mk head
    else String.mk (head.reverse.dropWhile (fun c => c = '/')).reverse

/-- `BaseCompleter.init(self, view, settings)`: on a falsy view, return
immediately; otherwise bind a new `FlagsManager` built from a
`SearchScope` running from the view file's directory to the project base
folder, with the cmake-related options taken from the settings. -/
def CompleterState.init (st : CompleterState) (view : Option SView)
    (settings : Settings) : CompleterState :=
  match view with
  | none => st
  | some v =>
    let current_dir := dirname v.file_name
    let search_scope : SearchScope :=
      { from_folder := current_dir
        to_folder := settings.project_base_folder }
    { st with
        flags_manager := some
          { use_cmake := settings.generate_flags_with_cmake
            flags_update_strategy := settings.cmake_flags_priority
            cmake_prefix_paths := settings.cmake_prefix_paths
            search_scope := search_scope } }

/-! ### `BaseCompleter.get_completions` -/

/-- Modelled from the spec: `tools.SublBridge.NO_DEFAULT_COMPLETIONS`
(its module is not among the analysed sources), the control value that
tells the editor to suppress its built-in completions. -/
inductive SublimeFlag
  | noDefaultCompletions
deriving DecidableEq, Repr

/-- The two shapes `BaseCompleter.get_completions` returns: a
`(completions, flags)` tuple, or the bare completions list. -/
inductive CompletionsReturn
  | withFlags (completions : List String) (flags : SublimeFlag)
  | plain (completions : List String)
deriving DecidableEq, Repr

/-- `BaseCompleter.get_completions(self, hide_default_completions)`.
The method reads `self.completions` and assigns nothing, so the state is
returned alongside the value to make that frame condition provable. -/
def get_completions (st : CompleterState) (hide_default_completions : Bool) :
    CompletionsReturn × CompleterState :=
  if hide_default_completions then
    (CompletionsReturn.withFlags st.completions SublimeFlag.noDefaultCompletions, st)
  else
    (CompletionsReturn.plain st.completions, st)

/-! ### `BaseCompleter.show_errors` and the error presenter -/

/-- Modelled from the spec: `CompileErrors.generate(view, errors)`
*replaces* the presenter's stored diagnostic set for that view
(spec §4.4); the presenter's module is not among the analysed sources. -/
def CompileErrors.generate (ev : CompileErrors) (view : Nat)
    (errors : List Diagnostic) : CompileErrors :=
  ⟨(view, errors) :: ev.err_regions.filter (fun p => p.1 != view)⟩

/-- A request to the rendering collaborator to draw the given
diagnostics for the given view. -/
structure RenderRequest where
  view : Nat
  diagnostics : List Diagnostic
deriving DecidableEq, Repr

/-- Modelled from the spec: `CompileErrors.show_regions(view)` is a pure
hand-off of the stored diagnostics for the view to the rendering
collaborator (spec §4.4). -/
def CompileErrors.show_regions (ev : CompileErrors) (view : Nat) :
    RenderRequest :=
  ⟨view, (ev.err_regions.lookup view).getD []⟩

/-- `BaseCompleter.show_errors(self, view, output)`:
`errors = self.compiler_variant.errors_from_output(output)` (the variant
is abstract here, passed as `variant`), then
`self.error_vis.generate(view, errors)`, then
`self.error_vis.show_regions(view)`.  Returns the updated presenter state
and the rendering request issued last. -/
def show_errors (variant : String → List Diagnostic) (ev : CompileErrors)
    (view : Nat) (output : String) : CompileErrors × RenderRequest :=
  let errors := variant output
  let ev2 := ev.generate view errors
  (ev2, ev2.show_regions view)

/-! ### `BaseCompleter.run_command` -/

/-- The observable behaviour of the spawned subprocess: its exit code and
its output chunks in arrival order, each tagged with the stream it was
written to.  Because `run_command` passes `stderr=subprocess.STDOUT`,
both streams end up in the single captured text. -/
inductive Stream
  | stdout
  | stderr
deriving DecidableEq, Repr

/-- A subprocess run as observed by `subprocess.check_output`. -/
structure ProcessResult where
  returncode : Int
  chunks : List (Stream × String)
deriving DecidableEq, Repr

/-- The single text `subprocess.check_output(…, stderr=subprocess.STDOUT)`
captures: all chunks of both streams, concatenated in arrival order. -/
def combinedOutput (res : ProcessResult) : String :=
  res.chunks.foldl (fun acc c => acc ++ c.2) ""

/-- `BaseCompleter.run_command(command, shell)`.  On exit code 0,
`check_output` returns the captured bytes and they are joined into a
string; on a non-zero exit code `check_output` raises
`CalledProcessError`, which is caught and the exception's captured
output (`e.output.decode`) is returned instead. -/
def run_command (res : ProcessResult) : String :=
  if res.returncode = 0 then
    combinedOutput res
  else
    combinedOutput res

/-! ### Python class-attribute semantics of the class-level defaults -/

/-- A Python attribute value, as far as the class-level defaults of
`BaseCompleter` need: `None`, a bool, or a reference to a heap-allocated
list object. -/
inductive PyVal
  | noneVal
  | boolVal (b : Bool)
  | listRef (r : Nat)
deriving DecidableEq, Repr

/-- The class dictionary written by the `BaseCompleter` class body:
the assignments at class scope.  `completions = []` allocates one list
object when the class body runs; we place it at heap slot 0. -/
def baseCompleterClassAttrs : List (String × PyVal) :=
  [("version_str", PyVal.noneVal),
   ("error_vis", PyVal.noneVal),
   ("compiler_variant", PyVal.noneVal),
   ("flags_manager", PyVal.noneVal),
   ("completions", PyVal.listRef 0),
   ("async_completions_ready", PyVal.boolVal false),
   ("valid", PyVal.boolVal false)]

/-- A `BaseCompleter` instance as Python sees it: its instance
dictionary (`self.__dict__`). -/
structure PyInstance where
  instAttrs : List (String × PyVal)
deriving DecidableEq, Repr

/-- Python attribute lookup on a `BaseCompleter` instance: the instance
dictionary first, then the class dictionary. -/
def getattr (obj : PyInstance) (name : String) : Option PyVal :=
  match obj.instAttrs.lookup name with
  | some v => some v
  | none => baseCompleterClassAttrs.lookup name

/-- The heap of list objects, by reference. -/
def Heap : Type := Nat → List String

/-- Mutating append (`list.append`) on the list object at reference `r`. -/
def heapAppend (h : Heap) (r : Nat) (x : String) : Heap :=
  fun r2 => if r2 = r then h r ++ [x] else h r2

/-! ### Concrete environments used to instantiate the theorems -/

/-- An empty remap table. -/
def dictNone : String → Option String := fun _ => none

/-- The remap table `{"9.0": "5.0"}` of the spec scenario. -/
def dict90 : String → Option String :=
  fun s => if s = "9.0" then some "5.0" else none

/-- A subprocess oracle whose every command prints
`clang version 3.8.0`. -/
def runClang380 : String → String := fun _ => "clang version 3.8.0"

/-- A subprocess oracle whose every command prints the Apple banner of
the spec scenario. -/
def runApple900 : String → String :=
  fun _ => "Apple LLVM version 9.0.0 (clang-900.0.39.2)"

/-- A subprocess oracle whose every command prints a bare Apple banner. -/
def runAppleBare : String → String :=
  fun _ => "Apple LLVM version 9.0.0"

/-- A parser used to instantiate `show_errors`. -/
def variantOneError : String → List Diagnostic :=
  fun out => [⟨"a.cpp", 1, 2, Severity.error, out⟩]

/-! ### Helper lemmas -/

/-- A `\d\.\d` match needs at least three characters after it, so the
match position is inside the text. -/
lemma matchesAt_lt_length {cs : List Char} {i : Nat}
    (h : matchesAt cs i = true) : i < cs.length := by
  by_contra hlt
  push_neg at hlt
  have hd : cs.drop i = [] := List.drop_eq_nil_of_le hlt
  unfold matchesAt at h
  rw [hd] at h
  simp at h

/-- The scan returns the first satisfying position. -/
lemma findIdxFrom_eq_some (p : Nat → Bool) :
    ∀ (fuel start i : Nat), start ≤ i → i < start + fuel → p i = true →
      (∀ j, start ≤ j → j < i → p j = false) →
      findIdxFrom p start fuel = some i := by
  intro fuel
  induction fuel with
  | zero => intro start i h1 h2 _ _; omega
  | succ n ih =>
    intro start i h1 h2 h3 h4
    unfold findIdxFrom
    by_cases hp : p start = true
    · have hsi : start = i := by
        rcases Nat.lt_or_ge start i with hlt | hge
        · rw [h4 start le_rfl hlt] at hp; cases hp
        · omega
      subst hsi
      simp [hp]
    · have hps : p start = false := by
        cases hval : p start with
        | true => exact absurd hval hp
        | false => rfl
      have hne : start ≠ i := by
        intro he; rw [he, h3] at hps; cases hps
      have hlt : start < i := Nat.lt_of_le_of_ne h1 hne
      rw [if_neg (by simp [hps])]
      exact ih (start + 1) i hlt (by omega) h3
        (fun j hj1 hj2 => h4 j (by omega) hj2)

/-- If no position satisfies `p`, the scan finds nothing. -/
lemma findIdxFrom_eq_none (p : Nat → Bool) (h : ∀ j, p j = false) :
    ∀ (fuel start : Nat), findIdxFrom p start fuel = none := by
  intro fuel
  induction fuel with
  | zero => intro start; rfl
  | succ n ih =>
    intro start
    unfold findIdxFrom
    rw [if_neg (by simp [h start])]
    exact ih (start + 1)

/-- `findVersionIdx` returns the leftmost match position. -/
lemma findVersionIdx_eq_some {cs : List Char} {i : Nat}
    (h1 : matchesAt cs i = true)
    (h2 : ∀ j, j < i → matchesAt cs j = false) :
    findVersionIdx cs = some i :=
  findIdxFrom_eq_some _ cs.length 0 i (Nat.zero_le i)
    (by simpa using matchesAt_lt_length h1) h1 (fun j _ hj => h2 j hj)

/-- `findVersionIdx` finds nothing when no position matches. -/
lemma findVersionIdx_eq_none {cs : List Char}
    (h : ∀ j, matchesAt cs j = false) : findVersionIdx cs = none :=
  findIdxFrom_eq_none _ h cs.length 0

/-- Association-list lookup is unchanged by filtering out another key. -/
lemma lookup_filter_ne {β : Type} (m : List (Nat × β)) (k j : Nat)
    (h : j ≠ k) :
    (m.filter (fun p => p.1 != k)).lookup j = m.lookup j := by
  induction m with
  | nil => rfl
  | cons hd t ih =>
    obtain ⟨a, b⟩ := hd
    by_cases hk : a = k
    · subst hk
      have hja : (j == a) = false := beq_false_of_ne h
      have hfilter : ((a, b) :: t).filter (fun p => p.1 != a) =
          t.filter (fun p => p.1 != a) := by
        simp [List.filter_cons]
      rw [hfilter, ih, List.lookup_cons, hja]
    · have hfilter : ((a, b) :: t).filter (fun p => p.1 != k) =
          (a, b) :: t.filter (fun p => p.1 != k) := by
        simp [List.filter_cons, hk]
      rw [hfilter, List.lookup_cons, List.lookup_cons, ih]

/-! ### Claim theorems -/

/-- C1: for every output text of the version probe (on a platform where
the OSX remap of C2 does not apply), the completer's `version_str` is set
to the leftmost substring matching `\d\.\d` in the combined
stdout+stderr text, and when no position of the text matches,
construction fails with a `RuntimeError` instead of producing a
completer. -/
theorem version_probe_leftmost (system : String)
    (dict : String → Option String) (run : String → String)
    (clang_binary : String) (hbin : clang_binary ≠ "")
    (hsys : system ≠ "Darwin") :
    (∀ i, matchesAt (run (clang_binary ++ " -v")).data i = true →
      (∀ j, j < i → matchesAt (run (clang_binary ++ " -v")).data j = false) →
      (baseCompleterInit system dict run clang_binary).1 =
        Except.ok (freshCompleter
          (versionAt (run (clang_binary ++ " -v")).data i))) ∧
    ((∀ i, matchesAt (run (clang_binary ++ " -v")).data i = false) →
      (baseCompleterInit system dict run clang_binary).1 =
        Except.error InitError.versionNotFound) := by
  constructor
  · intro i hi hleft
    have hfv : findVersion (run (clang_binary ++ " -v")).data =
        some (versionAt (run (clang_binary ++ " -v")).data i) := by
      unfold findVersion
      rw [findVersionIdx_eq_some hi hleft]
      rfl
    have hd : (system == "Darwin") = false := beq_false_of_ne hsys
    simp [baseCompleterInit, hbin, hfv, hd]
  · intro hnone
    have hfv : findVersion (run (clang_binary ++ " -v")).data = none := by
      unfold findVersion
      rw [findVersionIdx_eq_none hnone]
      rfl
    simp [baseCompleterInit, hbin, hfv]

/-- Witness for C1 at the concrete probe output `clang version 3.8.0`,
whose leftmost `\d\.\d` match is at position 14 and reads `3.8`. -/
theorem version_probe_leftmost_witness :
    ("clang" : String) ≠ "" ∧ ("Linux" : String) ≠ "Darwin" ∧
    matchesAt (runClang380 ("clang" ++ " -v")).data 14 = true ∧
    (baseCompleterInit "Linux" dictNone runClang380 "clang").1 =
      Except.ok (freshCompleter "3.8") :=
  ⟨by decide, by decide, by decide,
    (version_probe_leftmost "Linux" dictNone runClang380 "clang"
      (by decide) (by decide)).1 14 (by decide) (by decide)⟩

/-- C2, counterexample: on Darwin, with a probe output whose detected
token `9.0` exceeds `3.8` and a remap table with no entry for it, the
claim says the final `version_str` is the unchanged `9.0` and the probe
does not fail; the code instead raises a `KeyError` from the dict
subscript, so construction produces no completer at all. -/
theorem darwin_remap_missing_entry_raises :
    (baseCompleterInit "Darwin" dictNone runAppleBare "clang").1 =
      Except.error (InitError.keyError "9.0") := rfl

/-- C2 as amended: on Darwin with detected token exceeding `3.8`, the
final `version_str` is the remap-table entry when one exists, and
construction fails with a `KeyError` when none exists (instead of
keeping the token); in every other case (token not exceeding the
threshold, or platform not Darwin) the detected token is kept
unchanged. -/
theorem darwin_remap_amended (system : String)
    (dict : String → Option String) (run : String → String)
    (clang_binary : String) (v : String) (hbin : clang_binary ≠ "")
    (hfind : findVersion (run (clang_binary ++ " -v")).data = some v) :
    (∀ w, pyStrLt "3.8" v = true → system = "Darwin" → dict v = some w →
      (baseCompleterInit system dict run clang_binary).1 =
        Except.ok (freshCompleter w)) ∧
    (pyStrLt "3.8" v = true → system = "Darwin" → dict v = none →
      (baseCompleterInit system dict run clang_binary).1 =
        Except.error (InitError.keyError v)) ∧
    ((pyStrLt "3.8" v = false ∨ system ≠ "Darwin") →
      (baseCompleterInit system dict run clang_binary).1 =
        Except.ok (freshCompleter v)) := by
  refine ⟨?_, ?_, ?_⟩
  · intro w hgt hdar hdict
    subst hdar
    simp [baseCompleterInit, hbin, hfind, hgt, hdict]
  · intro hgt hdar hdict
    subst hdar
    simp [baseCompleterInit, hbin, hfind, hgt, hdict]
  · intro hcase
    rcases hcase with hle | hsys
    · simp [baseCompleterInit, hbin, hfind, hle]
    · have hd : (system == "Darwin") = false := beq_false_of_ne hsys
      simp [baseCompleterInit, hbin, hfind, hd]

/-- Witness for the amended C2 at the spec scenario: the Apple banner
`Apple LLVM version 9.0.0 (clang-900.0.39.2)` on Darwin with remap table
`{"9.0": "5.0"}` yields the final `version_str` `5.0`. -/
theorem darwin_remap_amended_witness :
    ("clang" : String) ≠ "" ∧
    findVersion (runApple900 ("clang" ++ " -v")).data = some "9.0" ∧
    pyStrLt "3.8" "9.0" = true ∧ dict90 "9.0" = some "5.0" ∧
    (baseCompleterInit "Darwin" dict90 runApple900 "clang").1 =
      Except.ok (freshCompleter "5.0") :=
  ⟨by decide, rfl, rfl, rfl,
    (darwin_remap_amended "Darwin" dict90 runApple900 "clang" "9.0"
      (by decide) rfl).1 "5.0" rfl rfl rfl⟩

/-- C3: `needs_init` returns true exactly when no flags manager is bound
yet, or `any_file_modified()` holds, or no per-view completer entry
exists; in particular a modified contributing file (second disjunct)
forces reinitialization even when a per-view entry exists. -/
theorem needs_init_iff (flags_manager : Option FlagsManager)
    (any_file_modified exists_for_view : Bool) :
    needs_init flags_manager any_file_modified exists_for_view = true ↔
      (flags_manager = none ∨ any_file_modified = true ∨
        exists_for_view = false) := by
  cases flags_manager <;> cases any_file_modified <;>
    cases exists_for_view <;> simp [needs_init]

/-- C4: constructing a completer with an empty compiler binary path
always fails with the `RuntimeError("clang binary not defined")`, and the
list of subprocess invocations performed is empty — the failure occurs
before any subprocess is invoked. -/
theorem empty_binary_fails_before_subprocess (system : String)
    (dict : String → Option String) (run : String → String) :
    baseCompleterInit system dict run "" =
      (Except.error InitError.clangBinaryNotDefined, []) := rfl

/-- C5: `run_command` returns the single captured text combining the
subprocess's stdout and stderr chunks (the call passes
`stderr=subprocess.STDOUT`), and when the subprocess exits with a
non-zero code the `CalledProcessError` is caught and the same captured
output text is returned instead of the exception propagating. -/
theorem run_command_returns_combined_output (res : ProcessResult) :
    run_command res = combinedOutput res ∧
    (res.returncode ≠ 0 → run_command res = combinedOutput res) := by
  refine ⟨?_, fun _ => ?_⟩ <;> (unfold run_command; split <;> rfl)

/-- Witness for C5 at a failing subprocess (exit code 1) that wrote one
chunk to each stream. -/
theorem run_command_nonzero_exit_witness :
    ((1 : Int) ≠ 0) ∧
    run_command ⟨1, [(Stream.stdout, "warning: x"), (Stream.stderr, "error: y")]⟩ =
      "warning: xerror: y" :=
  ⟨by decide,
    ((run_command_returns_combined_output
      ⟨1, [(Stream.stdout, "warning: x"), (Stream.stderr, "error: y")]⟩).2
        (by decide)).trans rfl⟩

/-- C6: for every non-null view, `init` binds a newly constructed
`FlagsManager` whose search scope runs from the directory of the view's
file to the settings' project base folder, with the cmake flag, update
strategy and prefix paths taken from the settings; no other completer
field changes. -/
theorem init_binds_flags_manager (st : CompleterState) (v : SView)
    (settings : Settings) :
    CompleterState.init st (some v) settings =
      { st with flags_manager := some (
          { use_cmake := settings.generate_flags_with_cmake
            flags_update_strategy := settings.cmake_flags_priority
            cmake_prefix_paths := settings.cmake_prefix_paths
            search_scope :=
              { from_folder := dirname v.file_name
                to_folder := settings.project_base_folder } }) } := rfl

/-- C7: `get_completions` is pure data-shaping on the cached list:
with `hide_default_completions` it returns the cached completions paired
with the suppress-default flag, without it the cached completions alone,
and in both cases the completer state is unchanged. -/
theorem get_completions_pure (st : CompleterState) :
    (get_completions st true).1 =
      CompletionsReturn.withFlags st.completions
        SublimeFlag.noDefaultCompletions ∧
    (get_completions st false).1 =
      CompletionsReturn.plain st.completions ∧
    ∀ hide_default_completions,
      (get_completions st hide_default_completions).2 = st :=
  ⟨rfl, rfl, fun b => by cases b <;> rfl⟩

/-- C8: `show_errors` parses the output with the compiler variant,
replaces (not merges) the presenter's stored diagnostic set for the view
with the parsed list — entries of other views unchanged — and then
requests rendering of exactly the stored diagnostics. -/
theorem show_errors_replaces_and_renders
    (variant : String → List Diagnostic) (ev : CompileErrors)
    (view : Nat) (output : String) :
    (show_errors variant ev view output).1.err_regions.lookup view =
      some (variant output) ∧
    (∀ k, k ≠ view →
      (show_errors variant ev view output).1.err_regions.lookup k =
        ev.err_regions.lookup k) ∧
    (show_errors variant ev view output).2 =
      { view := view, diagnostics := variant output } := by
  refine ⟨?_, ?_, ?_⟩
  · simp [show_errors, CompileErrors.generate, List.lookup_cons]
  · intro k hk
    simp only [show_errors, CompileErrors.generate]
    rw [List.lookup_cons, beq_false_of_ne hk]
    exact lookup_filter_ne ev.err_regions view k hk
  · simp [show_errors, CompileErrors.generate, CompileErrors.show_regions,
      List.lookup_cons]

/-- Witness for C8 at a concrete presenter holding a prior entry for
view 2: showing errors for view 1 leaves view 2's entry unchanged. -/
theorem show_errors_witness :
    (2 : Nat) ≠ 1 ∧
    (show_errors variantOneError ⟨[(2, [])]⟩ 1 "out").1.err_regions.lookup 2 =
      some [] :=
  ⟨by decide,
    ((show_errors_replaces_and_renders variantOneError ⟨[(2, [])]⟩ 1
      "out").2.1 2 (by decide)).trans rfl⟩

/-- C9: `completions`, `valid` and `async_completions_ready` are
class-level defaults of `BaseCompleter`; two instances that have not
shadowed `completions` in their instance dictionaries read the very same
list reference, so an append performed through one instance's reference
is observed when reading through the other's. -/
theorem class_level_defaults_shared (a b : PyInstance)
    (ha : a.instAttrs.lookup "completions" = none)
    (hb : b.instAttrs.lookup "completions" = none)
    (hv : a.instAttrs.lookup "valid" = none)
    (hr : a.instAttrs.lookup "async_completions_ready" = none) :
    (∃ r, getattr a "completions" = some (PyVal.listRef r) ∧
      getattr b "completions" = some (PyVal.listRef r) ∧
      ∀ (h : Heap) (x : String), heapAppend h r x r = h r ++ [x]) ∧
    getattr a "valid" = some (PyVal.boolVal false) ∧
    getattr a "async_completions_ready" = some (PyVal.boolVal false) := by
  refine ⟨⟨0, ?_, ?_, ?_⟩, ?_, ?_⟩
  · unfold getattr; rw [ha]; rfl
  · unfold getattr; rw [hb]; rfl
  · intro h x; unfold heapAppend; simp
  · unfold getattr; rw [hv]; rfl
  · unfold getattr; rw [hr]; rfl

/-- Witness for C9: two concrete instances with instance dictionaries
not shadowing the class-level defaults. -/
theorem class_level_defaults_shared_witness :
    (PyInstance.mk []).instAttrs.lookup "completions" = none ∧
    ((∃ r, getattr ⟨[]⟩ "completions" = some (PyVal.listRef r) ∧
      getattr ⟨[("version_str", PyVal.noneVal)]⟩ "completions" =
        some (PyVal.listRef r) ∧
      ∀ (h : Heap) (x : String), heapAppend h r x r = h r ++ [x]) ∧
    getattr ⟨[]⟩ "valid" = some (PyVal.boolVal false) ∧
    getattr ⟨[]⟩ "async_completions_ready" = some (PyVal.boolVal false)) :=
  ⟨rfl, class_level_defaults_shared ⟨[]⟩ ⟨[("version_str", PyVal.noneVal)]⟩
    rfl rfl rfl rfl⟩

/-- C10: calling `init` with a falsy view returns immediately and leaves
every field of the completer — in particular the flags manager binding —
exactly as it was. -/
theorem init_none_view_noop (st : CompleterState) (settings : Settings) :
    CompleterState.init st none settings = st := rfl

end BaseComplete
